import Mathlib

/-!
Verification of the reddit-monitor pipeline (src/src/*.py) against its
specification.  The Python modules are shallowly embedded below:

* `prefilter.py`        → `pre_filter`, `has_relevance_keywords`, `prioritize_by_relevance`
* `reddit_fetcher.py`   → `save_processed_posts`, `fetch_all_new_posts`
* `gemini_analyzer.py`  → `analyze_batch` (LLM attempts as an oracle trace)
* `main.py`             → `chunk_list`, `processResults`, `stepBatch`, `runBatches`,
                          `mainSummaryStep`
* `feishu_notifier.py`  → `send_batch_to_feishu` (delivery as an oracle),
                          summary-call arity constants

Configuration values absent from src/config.py (EXCLUDE_KEYWORDS,
RELEVANCE_KEYWORDS, MONITOR_COMMENTS, ENABLE_KEYWORD_SEARCH, ...) are
collaborator inputs per the spec and appear as explicit parameters.
-/

namespace RedditMonitor

/-- The `type` field of an item; the fetchers tag every item with exactly
one of the literals 'post', 'comment', 'search'. -/
inductive ItemType
| post
| comment
| search
deriving DecidableEq

/-- The `analysis` dict attached by main.py lines 114-118:
is_relevant / reason / reply_draft. -/
structure Analysis where
  is_relevant : Bool
  reason : String
  reply_draft : String
deriving DecidableEq

/-- The normalized item dict built by reddit_fetcher.py (lines 81-90,
120-129, 163-173).  All keys are always present on fetched items, so they
are plain fields; `search_keyword` exists only for search results and
`analysis` only after classification, hence `Option`. -/
structure RedditItem where
  id : String
  itype : ItemType
  title : String
  content : String
  link : String
  author : String
  subreddit : String
  published : String
  search_keyword : Option String := none
  analysis : Option Analysis := none
deriving DecidableEq

/-- Python `needle in hay` on strings: substring containment. -/
def pyInStr (needle hay : String) : Bool :=
  decide (needle.data <:+: hay.data)

/-- Python `str.lower()` (ASCII case folding, which covers the configured
keywords). -/
def lowerStr (s : String) : String :=
  ⟨s.data.map Char.toLower⟩

/-- prefilter.py lines 36 / 62: `(item.get('title','') + ' ' +
item.get('content','')).lower()`. -/
def itemText (it : RedditItem) : String :=
  lowerStr (it.title ++ " " ++ it.content)

/-- prefilter.py lines 40-43 / 63: whether some keyword of `kws`,
lowercased, occurs in the item's lowercased title+content. -/
def containsKeyword (kws : List String) (it : RedditItem) : Bool :=
  kws.any fun kw => pyInStr (lowerStr kw) (itemText it)

/-- prefilter.py `pre_filter` (lines 13-57): drop every item containing an
exclusion keyword, keep the rest in order.  `excludeKws` stands for the
configured EXCLUDE_KEYWORDS list (config is a collaborator). -/
def pre_filter (excludeKws : List String) (items : List RedditItem) : List RedditItem :=
  items.foldl (fun acc it => if containsKeyword excludeKws it then acc else acc ++ [it]) []

/-- prefilter.py `has_relevance_keywords` (lines 60-63). -/
def has_relevance_keywords (relKws : List String) (it : RedditItem) : Bool :=
  containsKeyword relKws it

/-- prefilter.py `prioritize_by_relevance` (lines 66-80): stable partition,
keyword items first. -/
def prioritize_by_relevance (relKws : List String) (items : List RedditItem) : List RedditItem :=
  let pair := items.foldl
    (fun (p : List RedditItem × List RedditItem) it =>
      if has_relevance_keywords relKws it then (p.1 ++ [it], p.2) else (p.1, p.2 ++ [it]))
    ([], [])
  pair.1 ++ pair.2

/-- config.py line 32. -/
def MAX_PROCESSED_POSTS : Nat := 5000

/-- reddit_fetcher.py `save_processed_posts` (lines 193-212), persisted-ids
computation.  The parameter `ids_list` stands for `list(processed_ids)`:
CPython sets are unordered (hash-order, randomized for strings), so the
enumeration handed to the trimming step is an arbitrary permutation of the
set's elements, not its insertion history.  `ids_list[-MAX:]` keeps the
last MAX entries of that enumeration. -/
def save_processed_posts (ids_list : List String) : List String :=
  if ids_list.length > MAX_PROCESSED_POSTS then
    ids_list.drop (ids_list.length - MAX_PROCESSED_POSTS)
  else
    ids_list

/-- Spec-words definition (for the refinement comparison in C3 only):
"retain only the most-recently-added MAX entries (insertion-order-based
trimming)" applied to the insertion history `insertionOrder`. -/
def mostRecentlyAdded (insertionOrder : List String) (n : Nat) : List String :=
  insertionOrder.drop (insertionOrder.length - n)

/-- main.py `chunk_list` (lines 34-36):
`[items[i:i + chunk_size] for i in range(0, len(items), chunk_size)]`.
`pyRangeStep stop step` is Python `range(0, stop, step)` for `step > 0`. -/
def pyRangeStep (stop step : Nat) : List Nat :=
  (List.range ((stop + step - 1) / step)).map (· * step)

/-- main.py `chunk_list` (lines 34-36); the slice `items[i:i+n]` is
`(items.drop i).take n`.  Python lists are heterogeneous, so the element
type is a parameter; main.py applies it to item lists. -/
def chunk_list {α : Type} (items : List α) (chunk_size : Nat) : List (List α) :=
  (pyRangeStep items.length chunk_size).map fun i => (items.drop i).take chunk_size

/-! ### reddit_fetcher.py: fetch_all_new_posts (lines 215-274)

The per-source RSS fetch results are collaborator inputs (network), so they
appear as lists of already-normalized items; the dedup/accumulate loop and
the final `save_processed_posts` call are embedded faithfully.  The Python
`processed_ids` set is a `Finset String`. -/

/-- One iteration of the inner loops at reddit_fetcher.py lines 232-236 /
244-248 / 256-260: `if item['id'] not in processed_ids: append; add`. -/
def dedupStep (acc : List RedditItem × Finset String) (it : RedditItem) :
    List RedditItem × Finset String :=
  if it.id ∈ acc.2 then acc else (acc.1 ++ [it], insert it.id acc.2)

/-- Fold `dedupStep` over the entries of one fetched feed. -/
def dedupFeed (acc : List RedditItem × Finset String) (feed : List RedditItem) :
    List RedditItem × Finset String :=
  feed.foldl dedupStep acc

/-- reddit_fetcher.py `fetch_all_new_posts` (lines 215-274).  `ledger0` is
the set returned by `load_processed_posts()` at line 222; `postFeeds`,
`commentFeeds`, `searchFeeds` are the per-subreddit / per-keyword fetch
results; `monitorComments` / `enableSearch` are the config flags (absent
from src/config.py, collaborator-supplied).  Returns the new-item list and
the set passed to `save_processed_posts` at line 263 before returning. -/
def fetch_all_new_posts (ledger0 : Finset String)
    (postFeeds : List (List RedditItem))
    (monitorComments : Bool) (commentFeeds : List (List RedditItem))
    (enableSearch : Bool) (searchFeeds : List (List RedditItem)) :
    List RedditItem × Finset String :=
  let s1 := postFeeds.foldl dedupFeed ([], ledger0)
  let s2 := if monitorComments then commentFeeds.foldl dedupFeed s1 else s1
  let s3 := if enableSearch then searchFeeds.foldl dedupFeed s2 else s2
  s3

/-! ### gemini_analyzer.py: analyze_batch (lines 123-175)

Each provider call either raises (message string) or produces a parsed
result list (the composite of `generate_content` + `parse_batch_response`,
both collaborator/derived data here).  `analyze_batch` consumes the trace
of successive attempt outcomes; `none` means the code is still inside the
wait-and-retry recursion after exhausting the supplied trace. -/

/-- A classification result element of the parsed JSON array.  Elements
need not be dicts (`nonDict`, skipped at main.py line 105); on a dict,
`index` may be missing, `is_relevant` defaults to False, `reason` and
`reply_draft` default to ''. -/
inductive JsonResult
| nonDict
| dict (index : Option Int) (is_relevant : Bool) (reason : String) (reply_draft : String)
deriving DecidableEq

/-- Outcome of one LLM attempt inside the try-block of `analyze_batch`. -/
inductive GeminiAttempt
| ok (results : List JsonResult)
| raise (msg : String)
deriving DecidableEq

/-- gemini_analyzer.py line 167: `"429" in error_msg or "quota" in
error_msg.lower()`. -/
def isQuotaError (msg : String) : Bool :=
  pyInStr "429" msg || pyInStr "quota" (lowerStr msg)

/-- Whether an attempt raises a throttling/quota error. -/
def throttles : GeminiAttempt → Bool
  | .ok _ => false
  | .raise m => isQuotaError m

/-- What one attempt yields once `analyze_batch` stops retrying: on a
successful call, the parsed results (lines 156-163 return `results` when
non-empty and `[]` otherwise — the same list either way); on a
non-throttling exception, `[]` (line 175). -/
def interpAttempt : GeminiAttempt → List JsonResult
  | .ok rs => rs
  | .raise _ => []

/-- The retry recursion of gemini_analyzer.py lines 165-175: a throttling
error sleeps 30s and re-enters `analyze_batch` on the same items (the
recursive call catches its own exceptions, so the `except: pass` fallback
is unreachable); any other outcome ends the recursion. -/
def analyzeAttempts : List GeminiAttempt → Option (List JsonResult)
  | [] => none
  | a :: rest => if throttles a then analyzeAttempts rest else some (interpAttempt a)

/-- gemini_analyzer.py `analyze_batch` (lines 123-175) over the attempt
trace; line 134-135 returns `[]` before any provider call when `items` is
empty. -/
def analyze_batch (items : List RedditItem) (attempts : List GeminiAttempt) :
    Option (List JsonResult) :=
  if items.isEmpty then some [] else analyzeAttempts attempts

/-! ### main.py batch loop (lines 96-144) and feishu_notifier.py -/

/-- Python runtime errors the embedded fragments can raise. -/
inductive PyErr
| indexError
| typeError
deriving DecidableEq

/-- Python `l[i]` on a list: `0 ≤ i < len` indexes from the front,
`-len ≤ i < 0` wraps to `len + i`, anything else raises IndexError. -/
def pyGetItem {α : Type} (l : List α) (i : Int) : Except PyErr α :=
  if h : 0 ≤ i ∧ i.toNat < l.length then
    .ok (l.get ⟨i.toNat, h.2⟩)
  else if h2 : i < 0 ∧ 0 ≤ i + l.length ∧ (i + l.length).toNat < l.length then
    .ok (l.get ⟨(i + l.length).toNat, h2.2.2⟩)
  else
    .error .indexError

/-- Per-type counters (`counts` / `relevant_stats` dicts keyed by the three
type literals). -/
structure TypeCounts where
  post : Nat
  comment : Nat
  search : Nat
deriving DecidableEq

/-- `d[t] = d.get(t, 0) + 1` for the type-keyed counter dicts. -/
def bumpCount (c : TypeCounts) : ItemType → TypeCounts
  | .post => { c with post := c.post + 1 }
  | .comment => { c with comment := c.comment + 1 }
  | .search => { c with search := c.search + 1 }

/-- Sum of the three counters. -/
def totalCounts (c : TypeCounts) : Nat :=
  c.post + c.comment + c.search

/-- main.py `count_by_type` (lines 25-31). -/
def count_by_type (items : List RedditItem) : TypeCounts :=
  items.foldl (fun c it => bumpCount c it.itype) ⟨0, 0, 0⟩

/-- One iteration of the result loop, main.py lines 104-123: skip
non-dicts, skip `index` missing or `>= len(batch_items)`, and on a truthy
`is_relevant` index into the batch (Python indexing — this is where a
negative index wraps or raises), attach the analysis dict, collect the
item, and bump `relevant_stats`. -/
def processOne (batch : List RedditItem) (st : List RedditItem × TypeCounts)
    (r : JsonResult) : Except PyErr (List RedditItem × TypeCounts) :=
  match r with
  | .nonDict => .ok st
  | .dict idx? is_rel reason draft =>
    match idx? with
    | none => .ok st
    | some idx =>
      if idx ≥ (batch.length : Int) then .ok st
      else if is_rel then do
        let it ← pyGetItem batch idx
        let it2 := { it with analysis := some ⟨true, reason, draft⟩ }
        .ok (st.1 ++ [it2], bumpCount st.2 it2.itype)
      else .ok st

/-- main.py lines 103-123: fold the result loop, threading the run-level
`relevant_stats`; returns `relevant_in_batch` and the updated counters, or
the propagated IndexError. -/
def processResults (batch : List RedditItem) (results : List JsonResult)
    (stats0 : TypeCounts) : Except PyErr (List RedditItem × TypeCounts) :=
  results.foldlM (processOne batch) ([], stats0)

/-- feishu_notifier.py `send_batch_to_feishu` (lines 161-178): per-item
webhook delivery, counting successes.  `deliver` is the collaborator
outcome of `send_to_feishu` for each item. -/
def send_batch_to_feishu (deliver : RedditItem → Bool) (posts : List RedditItem) : Nat :=
  posts.foldl (fun n p => if deliver p then n + 1 else n) 0

/-- Run-level mutable state of main's batch loop.  `savedLog` records, per
completed batch, the set handed to `save_processed_posts` at line 139;
`notifiedLog` records each list handed to `send_batch_to_feishu` at
line 127. -/
structure LoopState where
  processed : Finset String
  savedLog : List (Finset String)
  notifiedLog : List (List RedditItem)
  total_relevant : Nat
  total_sent : Nat
  relevant_stats : TypeCounts
deriving DecidableEq

/-- main.py lines 132-136: `item.get('id', item.get('link',''))` — the
'id' key is always present on fetched items, so this is `item.id` — added
only when truthy (non-empty). -/
def markProcessed (s : Finset String) (batch : List RedditItem) : Finset String :=
  batch.foldl (fun s it => if it.id ≠ "" then insert it.id s else s) s

/-- One iteration of main's batch loop (lines 96-144): process the
classification results, notify if any relevant item was found (updating
`total_sent` / `total_relevant`), mark the batch processed and save the
ledger.  An IndexError from result processing propagates (uncaught in
main). -/
def stepBatch (deliver : RedditItem → Bool) (batch : List RedditItem)
    (results : List JsonResult) (st : LoopState) : Except PyErr LoopState := do
  let pr ← processResults batch results st.relevant_stats
  let rel := pr.1
  let st1 :=
    if rel.isEmpty then
      { st with relevant_stats := pr.2 }
    else
      { st with
        relevant_stats := pr.2
        notifiedLog := st.notifiedLog ++ [rel]
        total_sent := st.total_sent + send_batch_to_feishu deliver rel
        total_relevant := st.total_relevant + rel.length }
  let processed1 := markProcessed st1.processed batch
  .ok { st1 with processed := processed1, savedLog := st1.savedLog ++ [processed1] }

/-- The batch loop of main.py lines 96-144: one `stepBatch` per batch,
consuming the per-batch classification outputs in order; an error aborts
the remaining batches (and the run). -/
def runBatches (deliver : RedditItem → Bool) :
    List (List RedditItem) → List (List JsonResult) → LoopState → Except PyErr LoopState
  | [], _, st => .ok st
  | b :: bs, rss, st => (stepBatch deliver b (rss.headD []) st).bind (runBatches deliver bs rss.tail)

/-- feishu_notifier.py line 181: `def send_summary_to_feishu(total: int,
relevant: int, sent: int)` — three required positional parameters, no
defaults. -/
def send_summary_param_count : Nat := 3

/-- main.py line 151: `send_summary_to_feishu({...})` — exactly one
positional argument (a dict of counts by type and by relevance). -/
def main_summary_arg_count : Nat := 1

/-- main.py lines 148-162: after the loop, if `total_relevant > 0` main
calls `send_summary_to_feishu` with its single dict argument.  Python
binds a call only when the positional argument count matches the required
parameter count; otherwise it raises TypeError.  Returns whether a summary
call was (successfully) made. -/
def mainSummaryStep (st : LoopState) : Except PyErr Bool :=
  if 0 < st.total_relevant then
    if main_summary_arg_count = send_summary_param_count then .ok true
    else .error .typeError
  else .ok false

/-! ### Generic helper instances and lemmas -/

instance {ε α : Type} [DecidableEq ε] [DecidableEq α] : DecidableEq (Except ε α) := fun x y => by
  cases x with
  | ok a =>
    cases y with
    | ok b => exact if h : a = b then isTrue (by rw [h]) else isFalse (fun hh => h (by cases hh; rfl))
    | error b => exact isFalse (fun hh => by cases hh)
  | error a =>
    cases y with
    | ok b => exact isFalse (fun hh => by cases hh)
    | error b => exact if h : a = b then isTrue (by rw [h]) else isFalse (fun hh => h (by cases hh; rfl))

/-- The keep-unless-excluded accumulator loop of `pre_filter` is a filter. -/
theorem foldl_keep_eq_filter (p : RedditItem → Bool) (l acc : List RedditItem) :
    l.foldl (fun acc it => if p it then acc else acc ++ [it]) acc
      = acc ++ l.filter (fun it => !p it) := by
  induction l generalizing acc with
  | nil => simp
  | cons a t ih =>
    by_cases h : p a
    · simp [List.foldl_cons, h, ih, List.filter_cons]
    · simp [List.foldl_cons, h, ih, List.filter_cons]

/-- The two-accumulator loop of `prioritize_by_relevance` is a pair of
filters. -/
theorem foldl_partition_eq_filter (p : RedditItem → Bool) (l acc1 acc2 : List RedditItem) :
    l.foldl
      (fun (pr : List RedditItem × List RedditItem) it =>
        if p it then (pr.1 ++ [it], pr.2) else (pr.1, pr.2 ++ [it]))
      (acc1, acc2)
      = (acc1 ++ l.filter p, acc2 ++ l.filter (fun it => !p it)) := by
  induction l generalizing acc1 acc2 with
  | nil => simp
  | cons a t ih =>
    by_cases h : p a
    · simp [List.foldl_cons, h, ih, List.filter_cons]
    · simp [List.foldl_cons, h, ih, List.filter_cons]

/-! ### Claim C6: pre-filter soundness -/

/-- C6: every item of the input whose lowercased title+content contains a
configured exclusion keyword is absent from `pre_filter`'s output; every
item containing no exclusion keyword appears in the output; and the output
is exactly the order-preserving filter of the input by
non-exclusion, so the relative order of kept items is the input order. -/
theorem pre_filter_soundness (excludeKws : List String) (items : List RedditItem) :
    pre_filter excludeKws items = items.filter (fun it => !containsKeyword excludeKws it)
    ∧ (∀ it ∈ items, containsKeyword excludeKws it = true →
        it ∉ pre_filter excludeKws items)
    ∧ (∀ it ∈ items, containsKeyword excludeKws it = false →
        it ∈ pre_filter excludeKws items) := by
  have he : pre_filter excludeKws items
      = items.filter (fun it => !containsKeyword excludeKws it) := by
    unfold pre_filter
    simpa using foldl_keep_eq_filter (containsKeyword excludeKws) items []
  refine ⟨he, ?_, ?_⟩
  · intro it _ hkw hout
    rw [he, List.mem_filter] at hout
    rw [hkw] at hout
    simp at hout
  · intro it hmem hkw
    rw [he, List.mem_filter]
    exact ⟨hmem, by rw [hkw]; rfl⟩

/-- Sample item used in concrete instantiations. -/
def sampleItem (iid title content : String) : RedditItem :=
  { id := iid, itype := .post, title := title, content := content,
    link := "L", author := "u", subreddit := "s", published := "t" }

def itemSpam : RedditItem := sampleItem "s1" "Free SPAM offer" "buy now"

def itemHelp : RedditItem := sampleItem "h1" "need help" "how to make a game without code"

/-- Witness for C6 at a concrete input: the item whose text contains the
exclusion keyword "spam" (case-insensitively) is excluded from the
output. -/
theorem pre_filter_soundness_witness :
    itemSpam ∈ [itemSpam, itemHelp]
    ∧ containsKeyword ["spam"] itemSpam = true
    ∧ itemSpam ∉ pre_filter ["spam"] [itemSpam, itemHelp] :=
  ⟨by decide, by decide,
    (pre_filter_soundness ["spam"] [itemSpam, itemHelp]).2.1 itemSpam (by decide) (by decide)⟩

/-! ### Claim C7: prioritization stability -/

/-- C7: `prioritize_by_relevance` returns the relevance-keyword items
first, then the others, each block preserving the input order (it equals
`filter p ++ filter (not p)`), and the result is a permutation of the
input. -/
theorem prioritize_stable_partition (relKws : List String) (items : List RedditItem) :
    prioritize_by_relevance relKws items
      = items.filter (has_relevance_keywords relKws)
        ++ items.filter (fun it => !has_relevance_keywords relKws it)
    ∧ (prioritize_by_relevance relKws items).Perm items := by
  have he : prioritize_by_relevance relKws items
      = items.filter (has_relevance_keywords relKws)
        ++ items.filter (fun it => !has_relevance_keywords relKws it) := by
    unfold prioritize_by_relevance
    rw [foldl_partition_eq_filter (has_relevance_keywords relKws) items [] []]
    simp
  exact ⟨he, by rw [he]; exact List.filter_append_perm _ items⟩

/-! ### Claim C3: ledger bound and retention -/

/-- C3 (amended): the persisted list is a suffix of the enumeration of the
id set, its length is `min |ids| MAX_PROCESSED_POSTS`, and in particular it
never exceeds MAX_PROCESSED_POSTS. -/
theorem save_ledger_bound (ids_list : List String) :
    save_processed_posts ids_list <:+ ids_list
    ∧ (save_processed_posts ids_list).length = min ids_list.length MAX_PROCESSED_POSTS
    ∧ (save_processed_posts ids_list).length ≤ MAX_PROCESSED_POSTS := by
  unfold save_processed_posts
  by_cases h : ids_list.length > MAX_PROCESSED_POSTS
  · rw [if_pos h]
    refine ⟨List.drop_suffix _ _, ?_, ?_⟩
    · rw [List.length_drop]; omega
    · rw [List.length_drop]; omega
  · rw [if_neg h]
    exact ⟨List.suffix_refl _, by omega, by omega⟩

/-- Distinct ids: the string of `n` letters 'a'. -/
def sid (n : Nat) : String := ⟨List.replicate n 'a'⟩

theorem sid_injective : Function.Injective sid := by
  intro m n h
  have hd : (sid m).data = (sid n).data := by rw [h]
  have := congrArg List.length hd
  simpa [sid] using this

/-- A concrete insertion history of 5001 distinct ids. -/
def insertionHistory : List String := (List.range 5001).map sid

theorem insertionHistory_length : insertionHistory.length = 5001 := by
  simp [insertionHistory]

/-- C3 counterexample: the reversed enumeration is a legitimate iteration
order of the same id set (a permutation; CPython sets are unordered), yet
the persisted list differs from the most-recently-added
MAX_PROCESSED_POSTS entries of the insertion history, refuting
insertion-order-based trimming. -/
theorem save_ledger_not_insertion_order :
    insertionHistory.reverse.Perm insertionHistory
    ∧ save_processed_posts insertionHistory.reverse
        ≠ mostRecentlyAdded insertionHistory MAX_PROCESSED_POSTS := by
  refine ⟨List.reverse_perm _, ?_⟩
  intro h
  have hrl : insertionHistory.reverse.length = 5001 := by
    rw [List.length_reverse, insertionHistory_length]
  have hsave : save_processed_posts insertionHistory.reverse
      = insertionHistory.reverse.drop 1 := by
    unfold save_processed_posts MAX_PROCESSED_POSTS
    rw [hrl]
    norm_num
  have hmra : mostRecentlyAdded insertionHistory MAX_PROCESSED_POSTS
      = insertionHistory.drop 1 := by
    unfold mostRecentlyAdded MAX_PROCESSED_POSTS
    rw [insertionHistory_length]
  rw [hsave, hmra] at h
  have h0 : (insertionHistory.reverse.drop 1)[0]? = (insertionHistory.drop 1)[0]? := by
    rw [h]
  rw [List.getElem?_drop, List.getElem?_drop] at h0
  have hrev : insertionHistory.reverse[1+ 0]? = insertionHistory[4999]? := by
    rw [List.getElem?_reverse (by rw [insertionHistory_length]; omega)]
    rw [insertionHistory_length]
  have hv1 : insertionHistory[4999]? = some (sid 4999) := by
    unfold insertionHistory
    rw [List.getElem?_map, List.getElem?_range (by omega)]
    rfl
  have hv2 : insertionHistory[1 + 0]? = some (sid 1) := by
    unfold insertionHistory
    rw [List.getElem?_map, List.getElem?_range (by omega)]
    rfl
  rw [hrev, hv1, hv2] at h0
  have : sid 4999 = sid 1 := by injection h0
  have := sid_injective this
  omega

/-! ### Claim C9: chunking round-trip -/

theorem chunk_list_nil {α : Type} (n : Nat) (hn : 0 < n) :
    chunk_list ([] : List α) n = [] := by
  unfold chunk_list pyRangeStep
  have h : (0 + n - 1) / n = 0 := Nat.div_eq_of_lt (by omega)
  rw [List.length_nil, h]
  rfl

/-- For a non-empty list the comprehension peels off one chunk of size
`n`. -/
theorem chunk_list_cons {α : Type} (l : List α) (n : Nat) (hn : 0 < n) (hl : l ≠ []) :
    chunk_list l n = l.take n :: chunk_list (l.drop n) n := by
  have hlen : 1 ≤ l.length := List.length_pos.mpr hl
  unfold chunk_list pyRangeStep
  have h1 : (l.length + n - 1) / n = (l.length - 1) / n + 1 := by
    have he : l.length + n - 1 = (l.length - 1) + n := by omega
    rw [he, Nat.add_div_right _ hn]
  have h2 : ((l.drop n).length + n - 1) / n = (l.length - 1) / n := by
    rw [List.length_drop]
    by_cases hc : n ≤ l.length
    · have he : l.length - n + n - 1 = l.length - 1 := by omega
      rw [he]
    · have h0 : l.length - n = 0 := by omega
      rw [h0]
      have ha : (0 + n - 1) / n = 0 := Nat.div_eq_of_lt (by omega)
      have hb : (l.length - 1) / n = 0 := Nat.div_eq_of_lt (by omega)
      rw [ha, hb]
  rw [h1, h2, List.range_succ_eq_map]
  simp only [List.map_cons, List.map_map, Nat.zero_mul, List.drop_zero]
  congr 1
  apply List.map_congr_left
  intro i _
  simp only [Function.comp]
  rw [List.drop_drop]
  have he : i * n + n = Nat.succ i * n := by rw [Nat.succ_mul]
  rw [Nat.add_comm n (i * n), he]

/-- Fuel-indexed induction carrying all four C9 properties. -/
theorem chunk_list_spec_aux {α : Type} (n : Nat) (hn : 0 < n) :
    ∀ (fuel : Nat) (l : List α), l.length ≤ fuel →
      (chunk_list l n).flatten = l
      ∧ (∀ c ∈ chunk_list l n, c ≠ [] ∧ c.length ≤ n)
      ∧ (∀ i (h2 : i + 1 < (chunk_list l n).length),
          ((chunk_list l n).get ⟨i, Nat.lt_of_succ_lt h2⟩).length = n) := by
  intro fuel
  induction fuel with
  | zero =>
    intro l hl
    have hnil : l = [] := by
      cases l with
      | nil => rfl
      | cons a t => simp at hl
    subst hnil
    rw [chunk_list_nil n hn]
    refine ⟨rfl, by simp, by simp⟩
  | succ f ih =>
    intro l hl
    by_cases hne : l = []
    · subst hne
      rw [chunk_list_nil n hn]
      refine ⟨rfl, by simp, by simp⟩
    · have hlen : 1 ≤ l.length := List.length_pos.mpr hne
      have hdrop : (l.drop n).length ≤ f := by
        rw [List.length_drop]; omega
      obtain ⟨ihj, ihmem, ihfull⟩ := ih (l.drop n) hdrop
      rw [chunk_list_cons l n hn hne]
      refine ⟨?_, ?_, ?_⟩
      · rw [List.flatten_cons, ihj, List.take_append_drop]
      · intro c hc
        rcases List.mem_cons.mp hc with hc1 | hc2
        · subst hc1
          constructor
          · rw [Ne, List.take_eq_nil_iff]
            push_neg
            exact ⟨by omega, hne⟩
          · rw [List.length_take]; omega
        · exact ihmem c hc2
      · intro i h2
        cases i with
        | zero =>
          have hrest : chunk_list (l.drop n) n ≠ [] := by
            intro hcontra
            rw [List.length_cons, hcontra] at h2
            simp at h2
          have hdropne : l.drop n ≠ [] := by
            intro hcontra
            rw [hcontra, chunk_list_nil n hn] at hrest
            exact hrest rfl
          have hlon : n < l.length := by
            by_contra hc
            exact hdropne (List.drop_eq_nil_iff.mpr (by omega))
          show (l.take n).length = n
          rw [List.length_take]; omega
        | succ j =>
          have h3 : j + 1 < (chunk_list (l.drop n) n).length := by
            rw [List.length_cons] at h2
            omega
          exact ihfull j h3

/-- C9: for every list and chunk size `n > 0`, concatenating the chunks of
`chunk_list` yields the original list; every chunk is non-empty and of
length at most `n`; and every chunk except possibly the last has length
exactly `n`. -/
theorem chunk_list_round_trip {α : Type} (items : List α) (n : Nat) (hn : 0 < n) :
    (chunk_list items n).flatten = items
    ∧ (∀ c ∈ chunk_list items n, c ≠ [] ∧ c.length ≤ n)
    ∧ (∀ i (h2 : i + 1 < (chunk_list items n).length),
        ((chunk_list items n).get ⟨i, Nat.lt_of_succ_lt h2⟩).length = n) :=
  chunk_list_spec_aux n hn items.length items (Nat.le_refl _)

/-- Witness for C9 at a concrete input: five items in chunks of two
concatenate back to the original list. -/
theorem chunk_list_round_trip_witness :
    0 < 2 ∧ (chunk_list [1, 2, 3, 4, 5] 2).flatten = [1, 2, 3, 4, 5] :=
  ⟨by decide, (chunk_list_round_trip [1, 2, 3, 4, 5] 2 (by decide)).1⟩

/-! ### Claim C2: dedup convergence of fetch_all_new_posts -/

/-- Invariant of the fetch accumulator: no collected item was in the
initial ledger, and the working set is the initial ledger extended with
the collected ids. -/
def fetchInv (ledger0 : Finset String) (acc : List RedditItem × Finset String) : Prop :=
  (∀ x ∈ acc.1, x.id ∉ ledger0)
  ∧ acc.2 = ledger0 ∪ (acc.1.map RedditItem.id).toFinset

theorem dedupStep_inv (ledger0 : Finset String) (acc : List RedditItem × Finset String)
    (it : RedditItem) (h : fetchInv ledger0 acc) : fetchInv ledger0 (dedupStep acc it) := by
  obtain ⟨h1, h2⟩ := h
  unfold dedupStep
  by_cases hmem : it.id ∈ acc.2
  · rw [if_pos hmem]; exact ⟨h1, h2⟩
  · rw [if_neg hmem]
    constructor
    · intro x hx
      rcases List.mem_append.mp hx with hx1 | hx2
      · exact h1 x hx1
      · have hxe : x = it := by simpa using hx2
        subst hxe
        intro hc
        exact hmem (h2 ▸ Finset.mem_union_left _ hc)
    · rw [h2]
      ext a
      simp only [Finset.mem_insert, Finset.mem_union, List.mem_toFinset, List.mem_map,
        List.mem_append, List.mem_singleton]
      constructor
      · rintro (rfl | ha | ⟨x, hx, rfl⟩)
        · exact Or.inr ⟨it, Or.inr rfl, rfl⟩
        · exact Or.inl ha
        · exact Or.inr ⟨x, Or.inl hx, rfl⟩
      · rintro (ha | ⟨x, hx1 | hx2, rfl⟩)
        · exact Or.inr (Or.inl ha)
        · exact Or.inr (Or.inr ⟨x, hx1, rfl⟩)
        · rw [hx2]
          exact Or.inl rfl

theorem dedupFeed_inv (ledger0 : Finset String) (feed : List RedditItem) :
    ∀ acc, fetchInv ledger0 acc → fetchInv ledger0 (dedupFeed acc feed) := by
  induction feed with
  | nil => intro acc h; exact h
  | cons x t ih =>
    intro acc h
    exact ih (dedupStep acc x) (dedupStep_inv ledger0 acc x h)

theorem foldl_dedupFeed_inv (ledger0 : Finset String) (feeds : List (List RedditItem)) :
    ∀ acc, fetchInv ledger0 acc → fetchInv ledger0 (feeds.foldl dedupFeed acc) := by
  induction feeds with
  | nil => intro acc h; exact h
  | cons f t ih =>
    intro acc h
    exact ih (dedupFeed acc f) (dedupFeed_inv ledger0 f acc h)

/-- C2: no item returned by `fetch_all_new_posts` has its id in the ledger
loaded at the start of the call (for all source phases — posts, comments,
search), and the set handed to `save_processed_posts` before returning is
exactly that initial ledger extended with the ids of all returned
items. -/
theorem fetch_dedup_convergence (ledger0 : Finset String)
    (postFeeds : List (List RedditItem)) (monitorComments : Bool)
    (commentFeeds : List (List RedditItem)) (enableSearch : Bool)
    (searchFeeds : List (List RedditItem)) :
    (∀ it ∈ (fetch_all_new_posts ledger0 postFeeds monitorComments commentFeeds
        enableSearch searchFeeds).1, it.id ∉ ledger0)
    ∧ (fetch_all_new_posts ledger0 postFeeds monitorComments commentFeeds
        enableSearch searchFeeds).2
      = ledger0 ∪ ((fetch_all_new_posts ledger0 postFeeds monitorComments commentFeeds
        enableSearch searchFeeds).1.map RedditItem.id).toFinset := by
  have hbase : fetchInv ledger0 ([], ledger0) := by
    constructor
    · intro x hx; simp at hx
    · simp
  have h1 := foldl_dedupFeed_inv ledger0 postFeeds ([], ledger0) hbase
  have h2 : fetchInv ledger0
      (if monitorComments then commentFeeds.foldl dedupFeed (postFeeds.foldl dedupFeed ([], ledger0))
       else postFeeds.foldl dedupFeed ([], ledger0)) := by
    by_cases hm : monitorComments
    · rw [if_pos hm]; exact foldl_dedupFeed_inv ledger0 commentFeeds _ h1
    · rw [if_neg hm]; exact h1
  have h3 : fetchInv ledger0 (fetch_all_new_posts ledger0 postFeeds monitorComments
      commentFeeds enableSearch searchFeeds) := by
    unfold fetch_all_new_posts
    by_cases hs : enableSearch
    · simp only [if_pos hs]
      exact foldl_dedupFeed_inv ledger0 searchFeeds _ h2
    · simp only [if_neg hs]
      exact h2
  exact h3

def itemOld : RedditItem := sampleItem "a" "already seen" "old content"

def itemNew : RedditItem := sampleItem "b" "fresh post" "new content"

/-- Witness for C2 at a concrete input: with ledger ids a and the feed
containing items a and b, the returned new item b is not in the initial
ledger. -/
theorem fetch_dedup_convergence_witness :
    itemNew ∈ (fetch_all_new_posts {"a"} [[itemOld, itemNew]] false [] false []).1
    ∧ itemNew.id ∉ ({"a"} : Finset String) :=
  ⟨by decide,
    (fetch_dedup_convergence {"a"} [[itemOld, itemNew]] false [] false []).1
      itemNew (by decide)⟩

/-! ### Claim C5: throttling retry behaviour of analyze_batch -/

def resultOk : JsonResult := .dict (some 0) true "relevant" "draft"

/-- C5 counterexample: the first attempt and its retry both fail with
throttling errors, yet `analyze_batch` does not give up with the empty
list — it retries a second time and returns that attempt's (non-empty)
results, refuting the claimed single bounded retry. -/
theorem analyze_batch_double_retry :
    analyze_batch [itemHelp]
      [.raise "429 rate limit", .raise "429 again", .ok [resultOk]] = some [resultOk]
    ∧ [resultOk] ≠ ([] : List JsonResult) := by
  constructor
  · rfl
  · decide

/-- C5 (amended): on a throttling/quota failure `analyze_batch` waits and
retries the same batch, and keeps doing so on every further throttling
failure (the retry recursion is unbounded, not single); the call returns
the outcome of the first non-throttling attempt — the parsed results on
success, the empty list on any non-throttling error (which is never
retried) — and as long as every attempt throttles it is still retrying. -/
theorem analyze_batch_retry (items : List RedditItem) (h : items ≠ []) :
    (∀ (pre : List GeminiAttempt) (a : GeminiAttempt) (rest : List GeminiAttempt),
        (∀ b ∈ pre, throttles b = true) → throttles a = false →
        analyze_batch items (pre ++ a :: rest) = some (interpAttempt a))
    ∧ (∀ attempts : List GeminiAttempt, (∀ b ∈ attempts, throttles b = true) →
        analyze_batch items attempts = none) := by
  obtain ⟨x, xs, rfl⟩ := List.exists_cons_of_ne_nil h
  constructor
  · intro pre a rest hpre ha
    induction pre with
    | nil =>
      show analyzeAttempts (a :: rest) = some (interpAttempt a)
      unfold analyzeAttempts
      rw [ha]
      rfl
    | cons b t ih =>
      have hb : throttles b = true := hpre b (List.mem_cons_self b t)
      have ht : ∀ c ∈ t, throttles c = true := fun c hc => hpre c (List.mem_cons_of_mem b hc)
      show analyzeAttempts (b :: (t ++ a :: rest)) = some (interpAttempt a)
      unfold analyzeAttempts
      rw [hb]
      exact ih ht
  · intro attempts hall
    induction attempts with
    | nil => rfl
    | cons b t ih =>
      have hb : throttles b = true := hall b (List.mem_cons_self b t)
      have ht : ∀ c ∈ t, throttles c = true := fun c hc => hall c (List.mem_cons_of_mem b hc)
      show analyzeAttempts (b :: t) = none
      unfold analyzeAttempts
      rw [hb]
      exact ih ht

/-- Witness for C5 (amended) at a concrete input: one throttling failure
followed by a successful attempt returns that attempt's results. -/
theorem analyze_batch_retry_witness :
    ([itemHelp] : List RedditItem) ≠ []
    ∧ analyze_batch [itemHelp] [.raise "429 quota", .ok [resultOk]] = some [resultOk] :=
  ⟨by decide,
    (analyze_batch_retry [itemHelp] (by decide)).1 [.raise "429 quota"] (.ok [resultOk]) []
      (by intro b hb; rw [List.mem_singleton] at hb; rw [hb]; decide) (by decide)⟩

/-! ### Claim C1: partial-failure checkpointing of the batch loop -/

theorem markProcessed_spec (batch : List RedditItem) :
    ∀ s : Finset String,
      s ⊆ markProcessed s batch
      ∧ (∀ it ∈ batch, it.id ≠ "" → it.id ∈ markProcessed s batch) := by
  induction batch with
  | nil => intro s; exact ⟨Finset.Subset.refl s, by simp⟩
  | cons a t ih =>
    intro s
    have hstep : markProcessed s (a :: t)
        = markProcessed (if a.id ≠ "" then insert a.id s else s) t := rfl
    obtain ⟨ihsub, ihmem⟩ := ih (if a.id ≠ "" then insert a.id s else s)
    constructor
    · refine Finset.Subset.trans ?_ (hstep ▸ ihsub)
      by_cases hid : a.id = ""
      · simp [hid]
      · simp only [hid, if_neg, ne_eq, not_false_iff, if_true]
        exact Finset.subset_insert _ s
    · intro it hit hid
      rcases List.mem_cons.mp hit with rfl | hmem
      · rw [hstep]
        refine ihsub ?_
        simp [hid]
      · exact hstep ▸ ihmem it hmem hid

/-- Completed `stepBatch` iterations only change `processed` by the
marking fold and append exactly the saved set to the log. -/
theorem stepBatch_ok_fields (deliver : RedditItem → Bool) (batch : List RedditItem)
    (results : List JsonResult) (st st' : LoopState)
    (h : stepBatch deliver batch results st = .ok st') :
    st'.processed = markProcessed st.processed batch
    ∧ st'.savedLog = st.savedLog ++ [st'.processed] := by
  unfold stepBatch at h
  cases hp : processResults batch results st.relevant_stats with
  | error e =>
    rw [hp] at h
    exact Except.noConfusion h
  | ok pr =>
    rw [hp] at h
    injection h with h2
    subst h2
    by_cases hrel : pr.1.isEmpty
    · simp only [hrel, if_true]
      exact ⟨trivial, trivial⟩
    · simp only [hrel, if_false, Bool.false_eq_true]
      exact ⟨trivial, trivial⟩

/-- C1 (amended): classification failure for a batch (an empty result
list, which is what `analyze_batch` returns on provider failure) never
aborts the iteration; every completed iteration marks each item of the
batch with a non-empty id as processed, never un-marks anything, and saves
the ledger immediately after the batch; and once an iteration completes,
the loop proceeds to the next batch. -/
theorem batch_checkpointing (deliver : RedditItem → Bool) (batch : List RedditItem)
    (results : List JsonResult) (st : LoopState) :
    (∃ stOk, stepBatch deliver batch [] st = .ok stOk)
    ∧ (∀ st', stepBatch deliver batch results st = .ok st' →
        st'.savedLog = st.savedLog ++ [st'.processed]
        ∧ st.processed ⊆ st'.processed
        ∧ (∀ it ∈ batch, it.id ≠ "" → it.id ∈ st'.processed))
    ∧ (∀ st' (bs : List (List RedditItem)) (rss : List (List JsonResult)),
        stepBatch deliver batch results st = .ok st' →
        runBatches deliver (batch :: bs) (results :: rss) st
          = runBatches deliver bs rss st') := by
  refine ⟨⟨_, rfl⟩, ?_, ?_⟩
  · intro st' h
    obtain ⟨hproc, hsave⟩ := stepBatch_ok_fields deliver batch results st st' h
    obtain ⟨hsub, hmem⟩ := markProcessed_spec batch st.processed
    exact ⟨hsave, hproc ▸ hsub, fun it hit hid => hproc ▸ hmem it hit hid⟩
  · intro st' bs rss h
    show (stepBatch deliver batch ((results :: rss).headD []) st).bind
        (runBatches deliver bs (results :: rss).tail) = runBatches deliver bs rss st'
    rw [List.headD_cons, h]
    rfl

/-- Fresh loop state (empty ledger, no statistics). -/
def st0cex : LoopState := ⟨∅, [], [], 0, 0, ⟨0, 0, 0⟩⟩

/-- State after one failed-classification batch containing `itemHelp`. -/
def c1OkState : LoopState := ⟨{"h1"}, [{"h1"}], [], 0, 0, ⟨0, 0, 0⟩⟩

/-- State after one failed-classification batch containing only an
empty-id item: nothing was marked processed. -/
def c1CexState : LoopState := ⟨∅, [∅], [], 0, 0, ⟨0, 0, 0⟩⟩

/-- Witness for C1 (amended) at a concrete input: after a batch whose
classification failed (empty results), the item's id is in the saved
ledger and the loop moves on. -/
theorem batch_checkpointing_witness :
    stepBatch (fun _ => true) [itemHelp] [] st0cex = .ok c1OkState
    ∧ itemHelp.id ∈ c1OkState.processed :=
  ⟨by decide,
    (batch_checkpointing (fun _ => true) [itemHelp] [] st0cex).2.1 c1OkState (by decide)
      |>.2.2 itemHelp (by decide) (by decide)⟩

/-- Empty-id item reaching main's loop (an RSS entry with neither id nor
link yields `id = ''` at reddit_fetcher.py line 44). -/
def itemNoId : RedditItem := sampleItem "" "untitled" "body"

/-- C1 counterexample: an item whose id is the empty string is skipped by
the `if item_id:` guard at main.py line 135 — after its batch completes,
its id was not added to the ledger (which stayed empty), refuting "every
item of that batch is added". -/
theorem batch_checkpointing_empty_id :
    stepBatch (fun _ => true) [itemNoId] [] st0cex = .ok c1CexState
    ∧ itemNoId.id ∉ c1CexState.processed := by
  constructor
  · decide
  · decide

/-! ### Claims C10 and C4: result mapping and relevance of notified items -/

/-- A classification result that survives the guards of main.py lines
104-112 and enters the relevant branch: a dict with an `index` that is
present and below the batch length, and a truthy `is_relevant`.  (Results
with a negative index below `-len` make `processResults` raise instead of
returning, so a returned run only ever counted these hits.) -/
def isHit (n : Nat) : JsonResult → Bool
  | .dict (some i) true _ _ => decide (i < (n : Int))
  | _ => false

theorem totalCounts_bump (c : TypeCounts) (ty : ItemType) :
    totalCounts (bumpCount c ty) = totalCounts c + 1 := by
  cases ty <;> simp [totalCounts, bumpCount] <;> omega

/-- Case analysis of one result-loop iteration: a non-hit leaves the
accumulator unchanged; a hit appends exactly one item carrying a truthy
analysis and bumps the counter for its type. -/
theorem processOne_cases (batch : List RedditItem) (acc : List RedditItem × TypeCounts)
    (r : JsonResult) (out : List RedditItem × TypeCounts)
    (h : processOne batch acc r = .ok out) :
    (isHit batch.length r = false ∧ out = acc)
    ∨ (isHit batch.length r = true
        ∧ ∃ it2, out.1 = acc.1 ++ [it2] ∧ out.2 = bumpCount acc.2 it2.itype
            ∧ ∃ a, it2.analysis = some a ∧ a.is_relevant = true) := by
  cases r with
  | nonDict =>
    left
    refine ⟨rfl, ?_⟩
    injection h with h2
    exact h2.symm
  | dict idx? is_rel reason draft =>
    cases idx? with
    | none =>
      left
      refine ⟨rfl, ?_⟩
      injection h with h2
      exact h2.symm
    | some i =>
      have h0 : (if i ≥ (batch.length : Int) then Except.ok acc
          else if is_rel = true then
            (pyGetItem batch i).bind (fun it =>
              Except.ok (acc.1 ++ [{ it with analysis := some ⟨true, reason, draft⟩ }],
                bumpCount acc.2 it.itype))
          else Except.ok acc) = Except.ok out := h
      clear h
      by_cases hge : i ≥ (batch.length : Int)
      · rw [if_pos hge] at h0
        left
        refine ⟨?_, by injection h0 with h2; exact h2.symm⟩
        cases is_rel with
        | false => rfl
        | true => exact decide_eq_false (by omega)
      · rw [if_neg hge] at h0
        cases hrel : is_rel with
        | false =>
          rw [hrel] at h0
          simp only [Bool.false_eq_true, if_false] at h0
          left
          constructor
          · rfl
          · injection h0 with h2
            exact h2.symm
        | true =>
          rw [hrel] at h0
          simp only [if_true] at h0
          cases hg : pyGetItem batch i with
          | error e =>
            rw [hg] at h0
            exact Except.noConfusion h0
          | ok it =>
            rw [hg] at h0
            injection h0 with h2
            right
            constructor
            · exact decide_eq_true (by omega)
            · exact ⟨{ it with analysis := some ⟨true, reason, draft⟩ },
                by rw [← h2], by rw [← h2], ⟨true, reason, draft⟩, rfl, rfl⟩

/-- Invariant of the result-processing fold: every collected item was
already collected or carries a truthy analysis, and the collected count
and the counter total each grow by exactly the number of hits. -/
theorem foldlM_processOne_inv (batch : List RedditItem) :
    ∀ (results : List JsonResult) (acc : List RedditItem) (stats : TypeCounts)
      (out : List RedditItem × TypeCounts),
      List.foldlM (processOne batch) (acc, stats) results = .ok out →
      (∀ it ∈ out.1, it ∈ acc ∨ ∃ a, it.analysis = some a ∧ a.is_relevant = true)
      ∧ out.1.length = acc.length + (results.filter (isHit batch.length)).length
      ∧ totalCounts out.2 = totalCounts stats + (results.filter (isHit batch.length)).length := by
  intro results
  induction results with
  | nil =>
    intro acc stats out h
    have hout : (acc, stats) = out := by injection h
    subst hout
    exact ⟨fun it hit => Or.inl hit, by simp, by simp⟩
  | cons r t ih =>
    intro acc stats out h
    rw [List.foldlM_cons] at h
    cases hr : processOne batch (acc, stats) r with
    | error e =>
      rw [hr] at h
      exact Except.noConfusion h
    | ok mid =>
      rw [hr] at h
      have h2 : List.foldlM (processOne batch) mid t = .ok out := h
      obtain ⟨mid1, mid2⟩ := mid
      obtain ⟨ih1, ih2, ih3⟩ := ih mid1 mid2 out h2
      rcases processOne_cases batch (acc, stats) r (mid1, mid2) hr with
        ⟨hf, heq⟩ | ⟨ht, it2, he1, he2, ha⟩
      · have hm1 : mid1 = acc := congrArg Prod.fst heq
        have hm2 : mid2 = stats := congrArg Prod.snd heq
        subst hm1
        subst hm2
        have hfl : List.filter (isHit batch.length) (r :: t)
            = List.filter (isHit batch.length) t := by
          rw [List.filter_cons, hf]
          rfl
        rw [hfl]
        exact ⟨ih1, ih2, ih3⟩
      · simp only at he1 he2
        subst he1
        subst he2
        have hfl : List.filter (isHit batch.length) (r :: t)
            = r :: List.filter (isHit batch.length) t := by
          rw [List.filter_cons, ht]
          rfl
        rw [hfl]
        refine ⟨?_, ?_, ?_⟩
        · intro it hit
          rcases ih1 it hit with hin | hana
          · rcases List.mem_append.mp hin with hin1 | hin2
            · exact Or.inl hin1
            · have : it = it2 := by simpa using hin2
              subst this
              exact Or.inr ha
          · exact Or.inr hana
        · rw [ih2, List.length_append, List.length_cons]
          simp
          omega
        · rw [ih3, totalCounts_bump, List.length_cons]
          omega

/-- The relevant-item extraction of one batch: every returned item carries
a truthy analysis, and the returned count and counter total equal the
number of hit results. -/
theorem processResults_spec (batch : List RedditItem) (results : List JsonResult)
    (stats0 : TypeCounts) (out : List RedditItem × TypeCounts)
    (h : processResults batch results stats0 = .ok out) :
    (∀ it ∈ out.1, ∃ a, it.analysis = some a ∧ a.is_relevant = true)
    ∧ out.1.length = (results.filter (isHit batch.length)).length
    ∧ totalCounts out.2 = totalCounts stats0 + (results.filter (isHit batch.length)).length := by
  obtain ⟨h1, h2, h3⟩ := foldlM_processOne_inv batch results [] stats0 out h
  refine ⟨?_, by simpa using h2, h3⟩
  intro it hit
  rcases h1 it hit with hin | hana
  · simp at hin
  · exact hana

/-- C10: whenever a batch iteration completes, the batch notifier received
either nothing or exactly the non-empty relevant list, whose every item
carries an attached analysis with `is_relevant = true`; and the relevant
counters (total and per-type) grew by exactly the number of results with a
truthy `is_relevant` and a valid index — results with `is_relevant` false
or absent contribute nothing. -/
theorem notified_items_relevant (deliver : RedditItem → Bool) (batch : List RedditItem)
    (results : List JsonResult) (st st' : LoopState)
    (h : stepBatch deliver batch results st = .ok st') :
    (st'.notifiedLog = st.notifiedLog
      ∨ ∃ rel, st'.notifiedLog = st.notifiedLog ++ [rel] ∧ rel ≠ []
          ∧ ∀ it ∈ rel, ∃ a, it.analysis = some a ∧ a.is_relevant = true)
    ∧ st'.total_relevant = st.total_relevant + (results.filter (isHit batch.length)).length
    ∧ totalCounts st'.relevant_stats
        = totalCounts st.relevant_stats + (results.filter (isHit batch.length)).length := by
  unfold stepBatch at h
  cases hp : processResults batch results st.relevant_stats with
  | error e =>
    rw [hp] at h
    exact Except.noConfusion h
  | ok pr =>
    rw [hp] at h
    injection h with h2
    subst h2
    obtain ⟨hs1, hs2, hs3⟩ := processResults_spec batch results st.relevant_stats pr hp
    by_cases hrel : pr.1.isEmpty
    · have hnil : pr.1 = [] := List.isEmpty_iff.mp hrel
      simp only [hrel, if_true]
      refine ⟨Or.inl trivial, ?_, hs3⟩
      rw [hnil] at hs2
      simp at hs2
      omega
    · have hne : pr.1 ≠ [] := fun hc => hrel (by rw [hc]; rfl)
      simp only [hrel, if_false, Bool.false_eq_true]
      exact ⟨Or.inr ⟨pr.1, rfl, hne, hs1⟩, by omega, hs3⟩

def itemFirst : RedditItem := sampleItem "i0" "first" "c0"

def itemSecond : RedditItem := sampleItem "i1" "second" "c1"

def itemFirstAnalyzed : RedditItem := { itemFirst with analysis := some ⟨true, "good", "dr"⟩ }

def itemSecondAnalyzed : RedditItem := { itemSecond with analysis := some ⟨true, "r", "d"⟩ }

def c10Results : List JsonResult :=
  [.dict (some 0) true "good" "dr", .dict (some 0) false "bad" "", .nonDict]

def c10State : LoopState := ⟨{"i0"}, [{"i0"}], [[itemFirstAnalyzed]], 1, 1, ⟨1, 0, 0⟩⟩

/-- Witness for C10 at a concrete input: of three results (one relevant,
one irrelevant, one non-dict) only the relevant one is counted. -/
theorem notified_items_relevant_witness :
    stepBatch (fun _ => true) [itemFirst] c10Results st0cex = .ok c10State
    ∧ c10State.total_relevant
        = st0cex.total_relevant + (c10Results.filter (isHit [itemFirst].length)).length :=
  ⟨by decide,
    (notified_items_relevant (fun _ => true) [itemFirst] c10Results st0cex c10State
      (by decide)).2.1⟩

def z0 : TypeCounts := ⟨0, 0, 0⟩

/-- C4: the result-index guard of main.py lines 108-109 (and
gemini_analyzer.py lines 217-218) drops a missing index and an index ≥ N,
and matches an in-range index to the item at that position — but a
negative index is NOT dropped: with a batch of two items, index -1 wraps
(Python negative indexing) and attaches the analysis to the LAST item,
and index -3 raises an IndexError that propagates out of the loop. -/
theorem negative_index_not_dropped :
    processResults [itemFirst, itemSecond] [.dict (some (-3)) true "r" "d"] z0
      = .error .indexError
    ∧ processResults [itemFirst, itemSecond] [.dict (some (-1)) true "r" "d"] z0
      = .ok ([itemSecondAnalyzed], ⟨1, 0, 0⟩)
    ∧ processResults [itemFirst, itemSecond] [.dict (some 1) true "r" "d"] z0
      = .ok ([itemSecondAnalyzed], ⟨1, 0, 0⟩)
    ∧ processResults [itemFirst, itemSecond] [.dict (some 2) true "r" "d"] z0
      = .ok ([], z0)
    ∧ processResults [itemFirst, itemSecond] [.dict none true "r" "d"] z0
      = .ok ([], z0) := by
  refine ⟨?_, ?_, ?_, ?_, ?_⟩ <;> decide

/-! ### Claim C8: summary emission -/

/-- A run state with relevant findings (two relevant items, one pushed). -/
def stRelevantRun : LoopState := ⟨∅, [], [], 2, 1, ⟨1, 0, 1⟩⟩

/-- C8: after the loop, when at least one relevant item was found main
invokes `send_summary_to_feishu` with one dict argument although the
function in src requires three positional arguments, so the call raises
TypeError and no summary notification is emitted; with zero relevant items
the call is skipped.  (The claimed "summary is emitted iff a relevant item
was found" therefore fails in the positive direction.) -/
theorem summary_call_arity_mismatch :
    mainSummaryStep stRelevantRun = .error .typeError
    ∧ mainSummaryStep st0cex = .ok false := by
  constructor
  · decide
  · decide

end RedditMonitor
